import Mathlib

set_option autoImplicit false
set_option linter.unusedVariables false

/-! Verification of the MythraLux service-worker caching core.

The service worker script (the third, full variant) is embedded shallowly:
the Cache Storage is an association list from cache name to a cache, itself
an association list from request URL to stored response; the network is a
partial function from URL to response; each handler and strategy function is
translated clause by clause from the JavaScript source. -/

namespace SW

/-- A stored or network response; `ok` models `Response.ok` and `body` the
payload bytes. -/
structure Response where
  ok : Bool
  body : String
  deriving Repr, DecidableEq

/-- An intercepted request: `url` is the full href; `hostname` and `pathname`
are the components produced by `new URL(request.url)`; `accept` is the value
of the `accept` header when present. -/
structure Request where
  method : String
  url : String
  hostname : String
  pathname : String
  accept : Option String
  deriving Repr, DecidableEq

/-- One named cache: association list from request URL to stored response. -/
abbrev CacheEntries := List (String × Response)

/-- The whole Cache Storage (`caches`): association list from cache name to
that cache's entries. -/
abbrev CacheState := List (String × CacheEntries)

/-- The network fetch primitive: a URL either yields a response or the fetch
rejects (`none`). -/
abbrev Net := String → Option Response

/-- Errors a strategy promise can reject with. -/
inductive JsError where
  | networkError
  | referenceErrorEvent
  deriving Repr, DecidableEq

/-- Is `pat` an initial segment of `l`? -/
def startsList : List Char → List Char → Bool
  | [], _ => true
  | _ :: _, [] => false
  | a :: pa, b :: lb => a = b && startsList pa lb

/-- Does `pat` occur contiguously anywhere in `l`? -/
def findSub (pat : List Char) : List Char → Bool
  | [] => startsList pat []
  | c :: rest => startsList pat (c :: rest) || findSub pat rest

/-- Models JavaScript `String.prototype.includes`. -/
def strIncludes (s pat : String) : Bool :=
  findSub pat.toList s.toList

/-- Models JavaScript `String.prototype.startsWith`. -/
def strStartsWith (s pat : String) : Bool :=
  startsList pat.toList s.toList

/-- Models JavaScript `String.prototype.endsWith`. -/
def strEndsWith (s pat : String) : Bool :=
  startsList pat.toList.reverse s.toList.reverse

/-- The first cache with the given name, if any (Cache Storage keeps at most
one cache per name). -/
def lookupCache : CacheState → String → Option CacheEntries
  | [], _ => none
  | (n, es) :: rest, name => if n = name then some es else lookupCache rest name

/-- Models `caches.open(name)`: idempotent, creates an empty cache when the
name is absent. -/
def cachesOpen (s : CacheState) (name : String) : CacheState :=
  match lookupCache s name with
  | some _ => s
  | none => s ++ [(name, [])]

/-- Models `cache.match(url)` on one cache's entries. -/
def matchEntry : CacheEntries → String → Option Response
  | [], _ => none
  | (k, v) :: rest, url => if k = url then some v else matchEntry rest url

/-- Models `cache.match(url)` against the cache called `name`. -/
def cacheMatch (s : CacheState) (name url : String) : Option Response :=
  match lookupCache s name with
  | some es => matchEntry es url
  | none => none

/-- Models `caches.match(url)`: first hit across all caches. -/
def cachesMatchAll : CacheState → String → Option Response
  | [], _ => none
  | (_, es) :: rest, url =>
      match matchEntry es url with
      | some v => some v
      | none => cachesMatchAll rest url

/-- Overwrite (or append) the entry for `k` in one cache. -/
def putEntry : CacheEntries → String → Response → CacheEntries
  | [], k, v => [(k, v)]
  | (k0, v0) :: rest, k, v =>
      if k0 = k then (k, v) :: rest else (k0, v0) :: putEntry rest k v

/-- Models `cache.put(url, resp)` through a handle on the cache called `name`
(creating the bucket when absent, as `caches.open` precedes every put in the
source). -/
def cachePut : CacheState → String → String → Response → CacheState
  | [], name, k, v => [(name, [(k, v)])]
  | (n, es) :: rest, name, k, v =>
      if n = name then (n, putEntry es k v) :: rest
      else (n, es) :: cachePut rest name k v

/-- Models `caches.keys()`. -/
def cachesKeys : CacheState → List String
  | [] => []
  | (n, _) :: rest => n :: cachesKeys rest

/-- Models `caches.delete(name)`: removes the whole bucket. -/
def cachesDelete : CacheState → String → CacheState
  | [], _ => []
  | (n, es) :: rest, name =>
      if n = name then cachesDelete rest name else (n, es) :: cachesDelete rest name

namespace V3

/-- `const CACHE_NAME = 'offline-ai-v3'` (the runtime cache of the full
service worker). -/
def CACHE_NAME : String := "offline-ai-v3"

/-- `const CORE_CACHE = 'offline-ai-core-v1'`. -/
def CORE_CACHE : String := "offline-ai-core-v1"

/-- The asset manifest `CORE_ASSETS`. -/
def CORE_ASSETS : List String :=
  ["/", "/index.html", "/manifest.json", "/app.js",
   "https://cdn.tailwindcss.com",
   "https://fonts.googleapis.com/css2?family=Inter:wght@400;500;600;700&display=swap",
   "https://fonts.gstatic.com/s/inter/v13/UcCO3FwrK3iLTeHuS_fvQtMwCp50KnMw2boKoduKmMEVuLyfAZJhiI2B.woff2",
   "https://cdn.jsdelivr.net/npm/@mlc-ai/web-llm@0.2.38/+esm"]

/-- The shape of `MODEL_CACHE_CONFIG`: name and version of the on-demand
model cache. -/
structure ModelCacheConfig where
  name : String
  version : Nat
  deriving Repr, DecidableEq

/-- `const MODEL_CACHE_CONFIG = { name: 'mlc-model-cache', version: 1 }`. -/
def MODEL_CACHE_CONFIG : ModelCacheConfig :=
  { name := "mlc-model-cache", version := 1 }

/-- The fetches performed by `cache.addAll(urls)`: every URL must fetch and
yield an ok response, otherwise the whole call rejects. -/
def fetchAll (net : Net) : List String → Option (List (String × Response))
  | [] => some []
  | u :: rest =>
      match net u with
      | some r =>
          if r.ok then (fetchAll net rest).map (fun l => (u, r) :: l) else none
      | none => none

/-- `cache.addAll(urls)` on the cache called `name`: fetch everything, then
store everything; any failed (or non-ok) fetch rejects the call before any
write happens. -/
def addAll (net : Net) (s : CacheState) (name : String) (urls : List String) :
    Option CacheState :=
  (fetchAll net urls).map
    (fun prs => prs.foldl (fun acc p => cachePut acc name p.1 p.2) s)

/-- The `install` handler: open the core cache and `addAll` the core assets
(`skipWaiting` does not touch the cache state). `none` means the install
phase failed. -/
def installHandler (net : Net) (s : CacheState) : Option CacheState :=
  addAll net (cachesOpen s CORE_CACHE) CORE_CACHE CORE_ASSETS

/-- The cleanup loop of the `activate` handler: for each listed cache name,
delete it unless it is `CACHE_NAME` or `CORE_CACHE`. -/
def deleteStale (s : CacheState) : List String → CacheState
  | [] => s
  | k :: rest =>
      deleteStale (if k ≠ CACHE_NAME ∧ k ≠ CORE_CACHE then cachesDelete s k else s) rest

/-- The `activate` handler: list all cache names and run the cleanup loop
(`clients.claim` does not touch the cache state). -/
def activateHandler (s : CacheState) : CacheState :=
  deleteStale s (cachesKeys s)

/-- The strategy buckets of the request classifier. -/
inductive Strategy where
  | BYPASS
  | CACHE_FIRST
  | NETWORK_FIRST
  | STALE_WHILE_REVALIDATE
  deriving Repr, DecidableEq

/-- `isCoreAsset(url)`: `CORE_ASSETS.some(asset => url.href.includes(asset))`. -/
def isCoreAsset (href : String) : Bool :=
  CORE_ASSETS.any (fun asset => strIncludes href asset)

/-- The CDN domain list inside `isCDNAsset`. -/
def cdnDomains : List String :=
  ["cdn.tailwindcss.com", "fonts.googleapis.com", "fonts.gstatic.com",
   "cdn.jsdelivr.net"]

/-- `isCDNAsset(url)`: `cdnDomains.some(domain => url.hostname.includes(domain))`. -/
def isCDNAsset (hostname : String) : Bool :=
  cdnDomains.any (fun domain => strIncludes hostname domain)

/-- `request.headers.get('accept')?.includes('text/html')`: false when the
header is absent (optional chaining yields undefined, which is falsy). -/
def acceptsHtml (r : Request) : Bool :=
  match r.accept with
  | some a => strIncludes a "text/html"
  | none => false

/-- The classifier realised by the fetch handler's guard structure: the three
early returns assign BYPASS, the dispatch chain inside `respondWith` picks
the strategy in source order. -/
def classify (r : Request) : Strategy :=
  if r.method ≠ "GET" then Strategy.BYPASS
  else if strStartsWith r.url "chrome-extension://" then Strategy.BYPASS
  else if strIncludes r.url "/dist/models/" then Strategy.BYPASS
  else if strIncludes r.pathname "/api/" then Strategy.NETWORK_FIRST
  else if isCoreAsset r.url || acceptsHtml r then Strategy.CACHE_FIRST
  else if isCDNAsset r.hostname then Strategy.STALE_WHILE_REVALIDATE
  else Strategy.NETWORK_FIRST

/-- `networkFirst(request)`: fetch; when the response is ok, open the runtime
cache and store a clone, then return the response; when the fetch rejects,
fall back to `caches.match` over all caches and rethrow the network error on
a miss. -/
def networkFirst (net : Net) (s : CacheState) (r : Request) :
    Except JsError Response × CacheState :=
  match net r.url with
  | some resp =>
      if resp.ok then
        (Except.ok resp, cachePut (cachesOpen s CACHE_NAME) CACHE_NAME r.url resp)
      else (Except.ok resp, s)
  | none =>
      match cachesMatchAll s r.url with
      | some c => (Except.ok c, s)
      | none => (Except.error JsError.networkError, s)

/-- `cacheFirst(request)`: on a cache hit the source evaluates
`event.waitUntil(...)`, but `event` is not bound inside this standalone
function and the service-worker global scope has no `event` binding, so the
callee lookup throws a ReferenceError before the cached response is returned
(and before the background refresh closure is even created). On a miss the
source fetches, stores a clone when the response is ok, and returns it. -/
def cacheFirst (net : Net) (s : CacheState) (r : Request) :
    Except JsError Response × CacheState :=
  let s1 := cachesOpen s CACHE_NAME
  match cacheMatch s1 CACHE_NAME r.url with
  | some _ => (Except.error JsError.referenceErrorEvent, s1)
  | none =>
      match net r.url with
      | some resp =>
          if resp.ok then (Except.ok resp, cachePut s1 CACHE_NAME r.url resp)
          else (Except.ok resp, s1)
      | none => (Except.error JsError.networkError, s1)

/-- `staleWhileRevalidate(request)`: after the cache lookup the source
unconditionally evaluates `event.waitUntil(...)`; `event` is unbound in that
scope, so every call throws a ReferenceError before reaching
`return cachedResponse || fetch(request)`. -/
def staleWhileRevalidate (net : Net) (s : CacheState) (r : Request) :
    Except JsError Response × CacheState :=
  let s1 := cachesOpen s CACHE_NAME
  (Except.error JsError.referenceErrorEvent, s1)

/-- The strategy dispatch inside `respondWith` (the body of the `try`). -/
def dispatchStrategy (net : Net) (s : CacheState) (r : Request) :
    Except JsError Response × CacheState :=
  if strIncludes r.pathname "/api/" then networkFirst net s r
  else if isCoreAsset r.url || acceptsHtml r then cacheFirst net s r
  else if isCDNAsset r.hostname then staleWhileRevalidate net s r
  else networkFirst net s r

/-- What the fetch handler does with one intercepted request. -/
inductive FetchOutcome where
  | bypassed
  | responded (resp : Response)
  | respondedUndefined
  | failed (e : JsError)
  deriving Repr, DecidableEq

/-- The whole fetch handler: the three early returns, the strategy dispatch,
and the catch block that answers HTML-accepting requests with
`caches.match('/index.html')` and rethrows for everything else. -/
def handleFetch (net : Net) (s : CacheState) (r : Request) :
    FetchOutcome × CacheState :=
  if r.method ≠ "GET" then (FetchOutcome.bypassed, s)
  else if strStartsWith r.url "chrome-extension://" then (FetchOutcome.bypassed, s)
  else if strIncludes r.url "/dist/models/" then (FetchOutcome.bypassed, s)
  else
    match dispatchStrategy net s r with
    | (Except.ok resp, s1) => (FetchOutcome.responded resp, s1)
    | (Except.error e, s1) =>
        if acceptsHtml r then
          match cachesMatchAll s1 "/index.html" with
          | some fb => (FetchOutcome.responded fb, s1)
          | none => (FetchOutcome.respondedUndefined, s1)
        else (FetchOutcome.failed e, s1)

/-- `cacheModel(url)`, run by the CACHE_MODEL message handler: fetch the URL;
on success open the model cache and store the response under the URL; on
failure only log. The Bool records which branch logged (true = stored). -/
def cacheModel (net : Net) (s : CacheState) (url : String) : Bool × CacheState :=
  match net url with
  | some resp =>
      (true,
        cachePut (cachesOpen s MODEL_CACHE_CONFIG.name) MODEL_CACHE_CONFIG.name
          url resp)
  | none => (false, s)

/-- An unreachable network: every fetch rejects. -/
def netDown : Net := fun _ => none

/-- A response cached by the on-demand model writer before an activation. -/
def demoModelResp : Response := { ok := true, body := "model-weights" }

/-- A cache state as left by a deploy: runtime cache, core cache, and the
model cache holding one entry written by `cacheModel`. -/
def demoState : CacheState :=
  [(CACHE_NAME, []), (CORE_CACHE, []),
   (MODEL_CACHE_CONFIG.name, [("https://host/model.bin", demoModelResp)])]

/-- A non-ok response: the fetch promise resolves, `Response.ok` is false. -/
def nonOkResp : Response := { ok := false, body := "server-error" }

/-- A network whose every fetch resolves with a non-ok response. -/
def nonOkNet : Net := fun _ => some nonOkResp

/-- An ok response. -/
def okResp : Response := { ok := true, body := "fresh" }

/-- A network whose every fetch resolves ok. -/
def netOk : Net := fun _ => some okResp

/-- A plain GET API request. -/
def reqNF : Request :=
  { method := "GET", url := "https://app.local/api/data",
    hostname := "app.local", pathname := "/api/data", accept := none }

/-- A response already sitting in the runtime cache. -/
def cachedResp : Response := { ok := true, body := "cached-bytes" }

/-- A GET request whose URL is pre-populated in the runtime cache. -/
def reqCached : Request :=
  { method := "GET", url := "https://app.local/k.js",
    hostname := "app.local", pathname := "/k.js", accept := none }

/-- A cache state pre-populated for `reqCached`. -/
def prePopulated : CacheState :=
  [(CACHE_NAME, [("https://app.local/k.js", cachedResp)])]

/-- A GET request for a known CDN asset. -/
def cdnReq : Request :=
  { method := "GET", url := "https://cdn.jsdelivr.net/npm/marked/marked.min.js",
    hostname := "cdn.jsdelivr.net", pathname := "/npm/marked/marked.min.js",
    accept := none }

/-- A GET request for a huggingface model weight file. -/
def hfBinReq : Request :=
  { method := "GET", url := "https://huggingface.co/mlc/model.bin",
    hostname := "huggingface.co", pathname := "/mlc/model.bin", accept := none }

/-- A POST request to the chat API endpoint. -/
def postApiReq : Request :=
  { method := "POST", url := "https://app.local/api/chat",
    hostname := "app.local", pathname := "/api/chat", accept := none }

/-- The cached offline fallback document. -/
def fbResp : Response := { ok := true, body := "offline-page" }

/-- A cache state holding the offline fallback under `/index.html`. -/
def htmlState : CacheState := [(CACHE_NAME, [("/index.html", fbResp)])]

/-- An HTML navigation request. -/
def rHtml : Request :=
  { method := "GET", url := "https://app.local/index.html",
    hostname := "app.local", pathname := "/index.html",
    accept := some "text/html" }

/-- A model-weight response served by the network. -/
def modelResp : Response := { ok := true, body := "weights" }

/-- A network serving the model weights. -/
def netModel : Net := fun _ => some modelResp

end V3

namespace V1

/-- The early-return guard of the first service-worker variant's fetch
handler: bypass by model-hosting domain or large-binary extension; the
method is never inspected. -/
def shouldBypass (r : Request) : Bool :=
  strIncludes r.hostname "huggingface" || strIncludes r.hostname "mlc-ai" ||
  strEndsWith r.pathname ".bin" || strEndsWith r.pathname ".wasm"

end V1

theorem lookupCache_delete_self (s : CacheState) (m : String) :
    lookupCache (cachesDelete s m) m = none := by
  induction s with
  | nil => rfl
  | cons e rest ih =>
      obtain ⟨n, es⟩ := e
      by_cases h : n = m
      · simpa [cachesDelete, h] using ih
      · simp [cachesDelete, h, lookupCache, ih]

theorem lookupCache_delete_ne (s : CacheState) (m n : String) (h : n ≠ m) :
    lookupCache (cachesDelete s m) n = lookupCache s n := by
  induction s with
  | nil => rfl
  | cons e rest ih =>
      obtain ⟨n0, es⟩ := e
      by_cases h0 : n0 = m
      · subst h0
        simp [cachesDelete, lookupCache, Ne.symm h, ih]
      · by_cases h1 : n0 = n
        · simp [cachesDelete, h0, lookupCache, h1, h]
        · simp [cachesDelete, h0, lookupCache, h1, ih]

theorem mem_cachesKeys_iff (s : CacheState) (n : String) :
    n ∈ cachesKeys s ↔ (lookupCache s n).isSome = true := by
  induction s with
  | nil => simp [cachesKeys, lookupCache]
  | cons e rest ih =>
      obtain ⟨n0, es⟩ := e
      by_cases h : n0 = n
      · subst h
        simp [cachesKeys, lookupCache]
      · have h2 : ¬ n = n0 := fun hEq => h hEq.symm
        simpa [cachesKeys, lookupCache, h, h2] using ih

theorem matchEntry_putEntry (es : CacheEntries) (k u : String) (v : Response) :
    matchEntry (putEntry es k v) u = if u = k then some v else matchEntry es u := by
  induction es with
  | nil =>
      by_cases h : u = k
      · simp [putEntry, matchEntry, h]
      · have h2 : ¬ k = u := fun hEq => h hEq.symm
        simp [putEntry, matchEntry, h, h2]
  | cons e rest ih =>
      obtain ⟨k0, v0⟩ := e
      by_cases h0 : k0 = k
      · subst h0
        by_cases h : u = k0
        · subst h
          simp [putEntry, matchEntry]
        · have h2 : ¬ k0 = u := fun hEq => h hEq.symm
          simp [putEntry, matchEntry, h, h2]
      · by_cases h1 : k0 = u
        · subst h1
          simp [putEntry, matchEntry, h0, Ne.symm h0]
        · simp [putEntry, matchEntry, h0, h1, ih]

theorem cacheMatch_cachePut_same (s : CacheState) (name k u : String) (v : Response) :
    cacheMatch (cachePut s name k v) name u
      = if u = k then some v else cacheMatch s name u := by
  induction s with
  | nil =>
      by_cases h : u = k
      · simp [cachePut, cacheMatch, lookupCache, matchEntry, h]
      · have h2 : ¬ k = u := fun hEq => h hEq.symm
        simp [cachePut, cacheMatch, lookupCache, matchEntry, h, h2]
  | cons e rest ih =>
      obtain ⟨n0, es⟩ := e
      by_cases h0 : n0 = name
      · subst h0
        simp [cachePut, cacheMatch, lookupCache, matchEntry_putEntry]
      · simpa [cachePut, cacheMatch, lookupCache, h0] using ih

theorem lookupCache_cachePut_ne (s : CacheState) (name k n : String) (v : Response)
    (h : n ≠ name) :
    lookupCache (cachePut s name k v) n = lookupCache s n := by
  induction s with
  | nil => simp [cachePut, lookupCache, Ne.symm h]
  | cons e rest ih =>
      obtain ⟨n0, es⟩ := e
      by_cases h0 : n0 = name
      · subst h0
        simp [cachePut, lookupCache, Ne.symm h]
      · by_cases h1 : n0 = n
        · simp [cachePut, lookupCache, h0, h1, h]
        · simp [cachePut, lookupCache, h0, h1, ih]

theorem lookupCache_append_single (s : CacheState) (name n : String) (h : n ≠ name) :
    lookupCache (s ++ [(name, [])]) n = lookupCache s n := by
  induction s with
  | nil => simp [lookupCache, Ne.symm h]
  | cons e rest ih =>
      obtain ⟨n0, es⟩ := e
      by_cases h1 : n0 = n
      · simp [lookupCache, h1]
      · simp [lookupCache, h1, ih]

theorem lookupCache_cachesOpen_ne (s : CacheState) (name n : String) (h : n ≠ name) :
    lookupCache (cachesOpen s name) n = lookupCache s n := by
  unfold cachesOpen
  cases hl : lookupCache s name with
  | some es => rfl
  | none => exact lookupCache_append_single s name n h

namespace V3

theorem lookupCache_deleteStale (ks : List String) (s : CacheState) (n : String) :
    lookupCache (deleteStale s ks) n =
      if n ∈ ks ∧ n ≠ CACHE_NAME ∧ n ≠ CORE_CACHE then none else lookupCache s n := by
  induction ks generalizing s with
  | nil => simp [deleteStale]
  | cons k rest ih =>
      rw [deleteStale, ih]
      by_cases hmem : n ∈ rest ∧ n ≠ CACHE_NAME ∧ n ≠ CORE_CACHE
      · have hmem2 : n ∈ k :: rest ∧ n ≠ CACHE_NAME ∧ n ≠ CORE_CACHE :=
          ⟨List.mem_cons_of_mem k hmem.1, hmem.2⟩
        rw [if_pos hmem, if_pos hmem2]
      · rw [if_neg hmem]
        by_cases hk : k ≠ CACHE_NAME ∧ k ≠ CORE_CACHE
        · rw [if_pos hk]
          by_cases hnk : n = k
          · subst hnk
            have hmem2 : n ∈ n :: rest ∧ n ≠ CACHE_NAME ∧ n ≠ CORE_CACHE :=
              ⟨List.mem_cons_self n rest, hk⟩
            rw [if_pos hmem2, lookupCache_delete_self]
          · rw [lookupCache_delete_ne s k n hnk]
            have hmem2 : ¬ (n ∈ k :: rest ∧ n ≠ CACHE_NAME ∧ n ≠ CORE_CACHE) := by
              intro hc
              rcases List.mem_cons.mp hc.1 with h1 | h1
              · exact hnk h1
              · exact hmem ⟨h1, hc.2⟩
            rw [if_neg hmem2]
        · rw [if_neg hk]
          by_cases hnk : n = k
          · subst hnk
            have hmem2 : ¬ (n ∈ n :: rest ∧ n ≠ CACHE_NAME ∧ n ≠ CORE_CACHE) := by
              intro hc
              exact hk hc.2
            rw [if_neg hmem2]
          · have hmem2 : ¬ (n ∈ k :: rest ∧ n ≠ CACHE_NAME ∧ n ≠ CORE_CACHE) := by
              intro hc
              rcases List.mem_cons.mp hc.1 with h1 | h1
              · exact hnk h1
              · exact hmem ⟨h1, hc.2⟩
            rw [if_neg hmem2]

theorem lookupCache_activateHandler (s : CacheState) (n : String) :
    lookupCache (activateHandler s) n =
      if n ∈ cachesKeys s ∧ n ≠ CACHE_NAME ∧ n ≠ CORE_CACHE then none
      else lookupCache s n :=
  lookupCache_deleteStale (cachesKeys s) s n

/-- C3: after the activate handler completes, every cache name outside the
current registry {CACHE_NAME, CORE_CACHE} is no longer listed by
`caches.keys()`, while the registry's own caches are untouched. -/
theorem activate_purges_stale (s : CacheState) (n : String) :
    (n ≠ CACHE_NAME → n ≠ CORE_CACHE → n ∉ cachesKeys (activateHandler s))
    ∧ ((n = CACHE_NAME ∨ n = CORE_CACHE) →
        lookupCache (activateHandler s) n = lookupCache s n) := by
  constructor
  · intro h1 h2 hmem
    rw [mem_cachesKeys_iff, lookupCache_activateHandler] at hmem
    by_cases hin : n ∈ cachesKeys s
    · rw [if_pos ⟨hin, h1, h2⟩] at hmem
      simp at hmem
    · have hno : ¬ (n ∈ cachesKeys s ∧ n ≠ CACHE_NAME ∧ n ≠ CORE_CACHE) := by
        intro hc
        exact hin hc.1
      rw [if_neg hno] at hmem
      rw [← mem_cachesKeys_iff] at hmem
      exact hin hmem
  · intro h
    rw [lookupCache_activateHandler]
    have hno : ¬ (n ∈ cachesKeys s ∧ n ≠ CACHE_NAME ∧ n ≠ CORE_CACHE) := by
      intro hc
      rcases h with h | h
      · exact hc.2.1 h
      · exact hc.2.2 h
    rw [if_neg hno]

/-- C3 witness: in the demo state, a stale cache name is purged by
activation. -/
theorem activate_purges_stale_witness :
    "old-cache-v0" ∉ cachesKeys (activateHandler demoState) :=
  (activate_purges_stale demoState "old-cache-v0").1 (by decide) (by decide)

/-- C1: refuted on the code — the activate handler's whitelist is only
{CACHE_NAME, CORE_CACHE}, so it deletes the model cache `mlc-model-cache`:
an entry stored by the on-demand cache writer before activation is gone
afterwards. -/
theorem activate_deletes_model_cache :
    cacheMatch demoState MODEL_CACHE_CONFIG.name "https://host/model.bin"
        = some demoModelResp
    ∧ lookupCache (activateHandler demoState) MODEL_CACHE_CONFIG.name = none
    ∧ MODEL_CACHE_CONFIG.name ∉ cachesKeys (activateHandler demoState) := by
  refine ⟨by decide, by decide, by decide⟩

theorem fetchAll_none_of_fail (net : Net) (urls : List String) (u : String)
    (hmem : u ∈ urls) (hfail : net u = none) : fetchAll net urls = none := by
  induction urls with
  | nil => cases hmem
  | cons u0 rest ih =>
      rcases List.mem_cons.mp hmem with h | h
      · subst h
        simp [fetchAll, hfail]
      · rw [fetchAll]
        cases hnet : net u0 with
        | none => rfl
        | some r =>
            by_cases hok : r.ok
            · simp [hok, ih h]
            · simp [hok]

theorem fetchAll_mem (net : Net) (urls : List String)
    (prs : List (String × Response)) (hall : fetchAll net urls = some prs)
    (u : String) (hmem : u ∈ urls) : ∃ r, (u, r) ∈ prs := by
  induction urls generalizing prs with
  | nil => cases hmem
  | cons u0 rest ih =>
      rw [fetchAll] at hall
      cases hnet : net u0 with
      | none => simp only [hnet] at hall; cases hall
      | some r0 =>
          simp only [hnet] at hall
          by_cases hok : r0.ok
          · rw [if_pos hok] at hall
            cases hrest : fetchAll net rest with
            | none => rw [hrest] at hall; cases hall
            | some prs0 =>
                rw [hrest, Option.map_some'] at hall
                cases hall
                rcases List.mem_cons.mp hmem with h | h
                · subst h
                  exact ⟨r0, List.mem_cons_self _ _⟩
                · obtain ⟨r, hr⟩ := ih prs0 hrest h
                  exact ⟨r, List.mem_cons_of_mem _ hr⟩
          · rw [if_neg hok] at hall
            cases hall

theorem foldl_put_mem (name u : String)
    (prs : List (String × Response)) (acc : CacheState)
    (h : (∃ r, (u, r) ∈ prs) ∨ (∃ r, cacheMatch acc name u = some r)) :
    ∃ r, cacheMatch (prs.foldl (fun a p => cachePut a name p.1 p.2) acc) name u
      = some r := by
  induction prs generalizing acc with
  | nil =>
      rcases h with ⟨r, hr⟩ | hr
      · cases hr
      · exact hr
  | cons p rest ih =>
      obtain ⟨k, v⟩ := p
      rw [List.foldl_cons]
      apply ih
      by_cases hku : u = k
      · right
        refine ⟨v, ?_⟩
        rw [cacheMatch_cachePut_same, if_pos hku]
      · rcases h with ⟨r, hr⟩ | ⟨r, hr⟩
        · rcases List.mem_cons.mp hr with h1 | h1
          · cases h1
            exact absurd rfl hku
          · exact Or.inl ⟨r, h1⟩
        · right
          refine ⟨r, ?_⟩
          rw [cacheMatch_cachePut_same, if_neg hku]
          exact hr

/-- C2: all-or-nothing install — when the install handler succeeds, every
core asset URL is matchable in the core cache; when the fetch of any core
asset fails, the whole install phase fails. -/
theorem install_all_or_nothing (net : Net) (s : CacheState) :
    (∀ s2, installHandler net s = some s2 →
      ∀ u, u ∈ CORE_ASSETS → ∃ r, cacheMatch s2 CORE_CACHE u = some r)
    ∧ (∀ u, u ∈ CORE_ASSETS → net u = none → installHandler net s = none) := by
  constructor
  · intro s2 hs2 u hu
    rw [installHandler, addAll] at hs2
    cases hall : fetchAll net CORE_ASSETS with
    | none => rw [hall] at hs2; cases hs2
    | some prs =>
        rw [hall, Option.map_some'] at hs2
        cases hs2
        exact foldl_put_mem CORE_CACHE u prs _ (Or.inl (fetchAll_mem net _ prs hall u hu))
  · intro u hu hfail
    rw [installHandler, addAll, fetchAll_none_of_fail net CORE_ASSETS u hu hfail]
    rfl

/-- C2 witness: with the network down, the install handler fails (the core
asset "/" cannot be fetched). -/
theorem install_all_or_nothing_witness :
    installHandler netDown [] = none :=
  (install_all_or_nothing netDown []).2 "/" (by decide) rfl

/-- C4 (amended): the full service worker's guard assigns BYPASS, with
highest precedence, exactly when the method is not GET, the URL starts with
chrome-extension://, or the URL contains /dist/models/ — so a POST is
bypassed before any host or path check, but a huggingface .bin URL is not
bypassed here; the minimal variant's guard bypasses exactly by model-hosting
domain (huggingface, mlc-ai) or .bin/.wasm extension, never inspecting the
method. -/
theorem classify_bypass_iff (r : Request) :
    (classify r = Strategy.BYPASS ↔
      (r.method ≠ "GET" ∨ strStartsWith r.url "chrome-extension://" = true
        ∨ strIncludes r.url "/dist/models/" = true))
    ∧ (V1.shouldBypass r = true ↔
      (strIncludes r.hostname "huggingface" = true
        ∨ strIncludes r.hostname "mlc-ai" = true
        ∨ strEndsWith r.pathname ".bin" = true
        ∨ strEndsWith r.pathname ".wasm" = true)) := by
  constructor
  · unfold classify
    split_ifs with h1 h2 h3 h4 h5 h6 <;> simp_all
  · unfold V1.shouldBypass
    simp [Bool.or_eq_true, or_assoc]

/-- C4 (counterexample): the full service worker classifies a GET for a
huggingface .bin URL CACHE_FIRST, not BYPASS; and the minimal variant does
not bypass a POST to /api/chat (its guard never inspects the method). -/
theorem classify_bypass_claim_fails :
    classify hfBinReq = Strategy.CACHE_FIRST
    ∧ classify hfBinReq ≠ Strategy.BYPASS
    ∧ V1.shouldBypass postApiReq = false := by
  refine ⟨by decide, by decide, by decide⟩

/-- C5 (amended): networkFirst stores and returns an ok network response;
returns a non-ok (but resolved) network response without storing anything;
on fetch failure returns a previously stored response when one exists in any
cache; and propagates the network error when none does. -/
theorem networkFirst_contract (net : Net) (s : CacheState) (r : Request)
    (resp : Response) :
    (net r.url = some resp → resp.ok = true →
      (networkFirst net s r).1 = Except.ok resp
      ∧ cacheMatch (networkFirst net s r).2 CACHE_NAME r.url = some resp)
    ∧ (net r.url = some resp → resp.ok = false →
      networkFirst net s r = (Except.ok resp, s))
    ∧ (net r.url = none → cachesMatchAll s r.url = some resp →
      networkFirst net s r = (Except.ok resp, s))
    ∧ (net r.url = none → cachesMatchAll s r.url = none →
      networkFirst net s r = (Except.error JsError.networkError, s)) := by
  refine ⟨?_, ?_, ?_, ?_⟩
  · intro hnet hok
    simp [networkFirst, hnet, hok, cacheMatch_cachePut_same]
  · intro hnet hok
    simp [networkFirst, hnet, hok]
  · intro hnet hc
    simp [networkFirst, hnet, hc]
  · intro hnet hc
    simp [networkFirst, hnet, hc]

/-- C5 amended-claim witness: an ok response is returned and a copy is
matchable in the runtime cache afterwards. -/
theorem networkFirst_contract_witness :
    (networkFirst netOk [] reqNF).1 = Except.ok okResp
    ∧ cacheMatch (networkFirst netOk [] reqNF).2 CACHE_NAME reqNF.url
        = some okResp :=
  (networkFirst_contract netOk [] reqNF okResp).1 rfl rfl

/-- C5 (counterexample): the network fetch succeeds (the promise resolves,
with a non-ok status) and the response is returned, yet nothing is stored in
any cache — refuting "if the network fetch succeeds, a copy of the response
is stored in the cache". -/
theorem networkFirst_success_not_stored :
    (networkFirst nonOkNet [] reqNF).1 = Except.ok nonOkResp
    ∧ (networkFirst nonOkNet [] reqNF).2 = []
    ∧ cacheMatch (networkFirst nonOkNet [] reqNF).2 CACHE_NAME reqNF.url = none := by
  refine ⟨rfl, rfl, rfl⟩

/-- C6: refuted on the code — with the runtime cache pre-populated for the
requested key, cacheFirst throws the unbound-`event` ReferenceError on the
hit path instead of returning the cached response, for any network. -/
theorem cacheFirst_hit_throws (net : Net) :
    cacheMatch prePopulated CACHE_NAME reqCached.url = some cachedResp
    ∧ cacheFirst net prePopulated reqCached
        = (Except.error JsError.referenceErrorEvent, prePopulated) := by
  exact ⟨rfl, rfl⟩

/-- C7: refuted on the code — the CDN request satisfies isCDNAsset, yet the
dispatch routes it to cacheFirst because isCoreAsset holds of every URL (the
manifest entry "/" matches by substring), so the stale-while-revalidate
branch is never taken; and staleWhileRevalidate itself throws the
unbound-`event` ReferenceError on every call instead of returning a
response. -/
theorem cdn_requests_never_reach_swr (net : Net) (s : CacheState) :
    isCDNAsset cdnReq.hostname = true
    ∧ dispatchStrategy net s cdnReq = cacheFirst net s cdnReq
    ∧ (staleWhileRevalidate net s cdnReq).1
        = Except.error JsError.referenceErrorEvent := by
  have hapi : strIncludes cdnReq.pathname "/api/" = false := by decide
  have hcore : (isCoreAsset cdnReq.url || acceptsHtml cdnReq) = true := by decide
  exact ⟨by decide, by simp [dispatchStrategy, hapi, hcore], rfl⟩

/-- C8: when the dispatched strategy fails, the fetch handler answers an
HTML-accepting request with the cached offline document (when one is cached)
and rethrows the error for every other request. -/
theorem fetch_failure_fallback (net : Net) (s : CacheState) (r : Request)
    (e : JsError) (s1 : CacheState)
    (hget : r.method = "GET")
    (hchrome : strStartsWith r.url "chrome-extension://" = false)
    (hmodels : strIncludes r.url "/dist/models/" = false)
    (hdisp : dispatchStrategy net s r = (Except.error e, s1)) :
    (∀ fb, acceptsHtml r = true → cachesMatchAll s1 "/index.html" = some fb →
      handleFetch net s r = (FetchOutcome.responded fb, s1))
    ∧ (acceptsHtml r = false → handleFetch net s r = (FetchOutcome.failed e, s1)) := by
  have hng : ¬ r.method ≠ "GET" := by simp [hget]
  constructor
  · intro fb hhtml hfb
    simp [handleFetch, hng, hchrome, hmodels, hdisp, hhtml, hfb]
  · intro hhtml
    simp [handleFetch, hng, hchrome, hmodels, hdisp, hhtml]

/-- C8 witness: offline HTML navigation with the offline page cached resolves
to the cached offline document rather than an error. -/
theorem fetch_failure_fallback_witness :
    handleFetch netDown htmlState rHtml = (FetchOutcome.responded fbResp, htmlState) :=
  (fetch_failure_fallback netDown htmlState rHtml JsError.networkError htmlState
    rfl rfl rfl rfl).1 fbResp rfl rfl

/-- C9: the on-demand cache writer stores a successfully fetched response in
the model cache under the requested URL and leaves every other cache
generation unchanged; on fetch failure it only logs and leaves the entire
cache state unchanged. -/
theorem cacheModel_contract (net : Net) (s : CacheState) (url : String)
    (resp : Response) :
    (net url = some resp →
      (cacheModel net s url).1 = true
      ∧ cacheMatch (cacheModel net s url).2 MODEL_CACHE_CONFIG.name url = some resp
      ∧ ∀ n, n ≠ MODEL_CACHE_CONFIG.name →
          lookupCache (cacheModel net s url).2 n = lookupCache s n)
    ∧ (net url = none → cacheModel net s url = (false, s)) := by
  constructor
  · intro hnet
    refine ⟨by simp [cacheModel, hnet], ?_, ?_⟩
    · simp [cacheModel, hnet, cacheMatch_cachePut_same]
    · intro n hn
      simp only [cacheModel, hnet]
      rw [lookupCache_cachePut_ne _ _ _ _ _ hn, lookupCache_cachesOpen_ne _ _ _ hn]
  · intro hnet
    simp [cacheModel, hnet]

/-- C9 witness: a fetched model weight ends up in the model cache under its
URL. -/
theorem cacheModel_contract_witness :
    (cacheModel netModel [] "https://host/model.bin").1 = true
    ∧ cacheMatch (cacheModel netModel [] "https://host/model.bin").2
        MODEL_CACHE_CONFIG.name "https://host/model.bin" = some modelResp := by
  have h := (cacheModel_contract netModel [] "https://host/model.bin" modelResp).1 rfl
  exact ⟨h.1, h.2.1⟩

/-- C10: the "/" manifest entry makes isCoreAsset true of every URL that
contains a slash, so every request reaching the dispatch whose path does not
contain "/api/" is routed to the cache-first branch; the
stale-while-revalidate branch and the final network-first fallback are
unreachable. -/
theorem coreAsset_always_dispatch_cacheFirst (net : Net) (s : CacheState)
    (r : Request) (hslash : strIncludes r.url "/" = true)
    (hapi : strIncludes r.pathname "/api/" = false) :
    isCoreAsset r.url = true ∧ dispatchStrategy net s r = cacheFirst net s r := by
  have hcore : isCoreAsset r.url = true := by
    simp [isCoreAsset, CORE_ASSETS, hslash]
  exact ⟨hcore, by simp [dispatchStrategy, hapi, hcore]⟩

/-- C10 witness: a CDN GET request (slash in URL, no /api/ in path) is
dispatched to cacheFirst. -/
theorem coreAsset_always_dispatch_cacheFirst_witness :
    isCoreAsset cdnReq.url = true
    ∧ dispatchStrategy netDown [] cdnReq = cacheFirst netDown [] cdnReq :=
  coreAsset_always_dispatch_cacheFirst netDown [] cdnReq (by decide) (by decide)

end V3

end SW
